import Mathlib

/-!
Verification of the debounce engine of yalongwastaken/esp32-debouncing.

The repository contains two reference implementations of the same software
debouncing concept:

* a four-state finite state machine in `src/esp-idf/debounce_fsm/src/main.c`
  (`debounce_t`, `debounce_update`), with independent press/release windows;
* a two-state flag-based class in `src/arduino/debounce/src/main.cpp`
  (`SoftwareDebounce`), with one shared window.

Both are shallowly embedded below.  Hardware reads (`gpio_get_level`,
`digitalRead`) are environment inputs, so the update operations take the raw
electrical level as an argument; the polarity correction applied to that level
is translated verbatim.  Timestamps (`TickType_t` ticks, `millis()`
milliseconds) are 32-bit unsigned counters; the C subtraction `now - last` on
`uint32_t`/`unsigned long` is modelled by `wsub`, subtraction modulo 2^32.
The `pin` field and the GPIO configuration code are hardware handles with no
influence on the state machine and are omitted.  `pdMS_TO_TICKS` is a
monotone unit conversion applied uniformly at construction; durations are
kept in the engine's own tick unit throughout.
-/

/-- Wraparound subtraction on a 32-bit unsigned counter: the value of the C
expression `(uint32_t)(a - b)` (also `unsigned long` on the 32-bit Arduino
target) for unsigned operands `a`, `b`. -/
def wsub (a b : Nat) : Nat :=
  (a + (2 ^ 32 - b % 2 ^ 32)) % 2 ^ 32

/-- The `debounce_state_t` enumeration of the four-state variant. -/
inductive debounce_state_t where
  | DEBOUNCE_LOW
  | DEBOUNCE_RISING
  | DEBOUNCE_HIGH
  | DEBOUNCE_FALLING
deriving DecidableEq, Repr

export debounce_state_t (DEBOUNCE_LOW DEBOUNCE_RISING DEBOUNCE_HIGH DEBOUNCE_FALLING)

/-- The `debounce_edge_t` enumeration returned by `debounce_update`. -/
inductive debounce_edge_t where
  | DEBOUNCE_NO_EDGE
  | DEBOUNCE_RISING_EDGE
  | DEBOUNCE_FALLING_EDGE
deriving DecidableEq, Repr

export debounce_edge_t (DEBOUNCE_NO_EDGE DEBOUNCE_RISING_EDGE DEBOUNCE_FALLING_EDGE)

/-- The `debounce_t` struct of the four-state variant (the `pin` hardware
handle omitted; see the header comment). -/
structure debounce_t where
  inverted : Bool
  last_update_ticks : Nat
  press_delay_ticks : Nat
  release_delay_ticks : Nat
  state : debounce_state_t
deriving DecidableEq, Repr

/-- `raw_read` of the four-state variant: polarity correction of the raw
electrical level (the level itself is an environment input). -/
def raw_read (lvl : Bool) (inverted : Bool) : Bool :=
  if inverted then !lvl else lvl

/-- `debounce_init`: stores the configuration and seeds the state from the
initial polarity-corrected read. -/
def debounce_init (lvl : Bool) (inverted : Bool) (now press_delay release_delay : Nat) :
    debounce_t :=
  { inverted := inverted
    last_update_ticks := now
    press_delay_ticks := press_delay
    release_delay_ticks := release_delay
    state := if raw_read lvl inverted then DEBOUNCE_HIGH else DEBOUNCE_LOW }

/-- `debounce_update` of the four-state variant, translated case by case from
the C `switch`: returns the mutated struct together with the edge returned. -/
def debounce_update (self : debounce_t) (lvl : Bool) (now : Nat) :
    debounce_t × debounce_edge_t :=
  let raw := raw_read lvl self.inverted
  match self.state with
  | DEBOUNCE_LOW =>
      if raw then
        ({ self with state := DEBOUNCE_RISING, last_update_ticks := now }, DEBOUNCE_NO_EDGE)
      else
        (self, DEBOUNCE_NO_EDGE)
  | DEBOUNCE_RISING =>
      if raw then
        if wsub now self.last_update_ticks ≥ self.press_delay_ticks then
          ({ self with state := DEBOUNCE_HIGH }, DEBOUNCE_RISING_EDGE)
        else
          (self, DEBOUNCE_NO_EDGE)
      else
        ({ self with state := DEBOUNCE_LOW }, DEBOUNCE_NO_EDGE)
  | DEBOUNCE_HIGH =>
      if !raw then
        ({ self with state := DEBOUNCE_FALLING, last_update_ticks := now }, DEBOUNCE_NO_EDGE)
      else
        (self, DEBOUNCE_NO_EDGE)
  | DEBOUNCE_FALLING =>
      if !raw then
        if wsub now self.last_update_ticks ≥ self.release_delay_ticks then
          ({ self with state := DEBOUNCE_LOW }, DEBOUNCE_FALLING_EDGE)
        else
          (self, DEBOUNCE_NO_EDGE)
      else
        ({ self with state := DEBOUNCE_HIGH }, DEBOUNCE_NO_EDGE)

/-- Final engine state after feeding a list of `(level, timestamp)` samples
through `debounce_update`. -/
def runState (s : debounce_t) : List (Bool × Nat) → debounce_t
  | [] => s
  | (lvl, t) :: rest => runState (debounce_update s lvl t).1 rest

/-- Edge returned by each successive `debounce_update` invocation over a list
of `(level, timestamp)` samples. -/
def runEdges (s : debounce_t) : List (Bool × Nat) → List debounce_edge_t
  | [] => []
  | (lvl, t) :: rest =>
      (debounce_update s lvl t).2 :: runEdges (debounce_update s lvl t).1 rest

/-- The member variables of the Arduino `SoftwareDebounce` class (the `pin`
hardware handle omitted). -/
structure SoftwareDebounce where
  inverted : Bool
  cur_state : Bool
  prev_stable_state : Bool
  last_change_time : Nat
  delay_time : Nat
  state_changed : Bool
deriving DecidableEq, Repr

namespace SoftwareDebounce

/-- `read_raw_state` of the two-state variant: polarity correction of the raw
electrical level. -/
def read_raw_state (inverted : Bool) (lvl : Bool) : Bool :=
  if inverted then !lvl else lvl

/-- The constructor body of `SoftwareDebounce` (the initial raw level is an
environment input). -/
def construct (lvl : Bool) (inverted_logic : Bool) (debounce_delay_time : Nat) :
    SoftwareDebounce :=
  { inverted := inverted_logic
    cur_state := read_raw_state inverted_logic lvl
    prev_stable_state := read_raw_state inverted_logic lvl
    last_change_time := 0
    delay_time := debounce_delay_time
    state_changed := false }

/-- `SoftwareDebounce::update`, translated statement by statement: the raw
change resets the timer, then the stability check may flip the confirmed
state and set the flag. -/
def update (s : SoftwareDebounce) (lvl : Bool) (cur_time : Nat) : SoftwareDebounce :=
  let raw_state := read_raw_state s.inverted lvl
  let s1 :=
    if raw_state ≠ s.cur_state then
      { s with cur_state := raw_state, last_change_time := cur_time }
    else s
  if s1.state_changed = false ∧ wsub cur_time s1.last_change_time > s1.delay_time then
    if s1.cur_state ≠ s1.prev_stable_state then
      { s1 with prev_stable_state := s1.cur_state, state_changed := true }
    else s1
  else s1

/-- `SoftwareDebounce::get_changed`: consume-and-clear of the flag, returning
whether it was set. -/
def get_changed (s : SoftwareDebounce) : Bool × SoftwareDebounce :=
  if s.state_changed then (true, { s with state_changed := false }) else (false, s)

/-- `SoftwareDebounce::get_rising_edge`: `get_changed() && prev_stable_state`
(the second conjunct is only consulted when the first is true, but `&&` gives
the same value either way). -/
def get_rising_edge (s : SoftwareDebounce) : Bool × SoftwareDebounce :=
  ((get_changed s).1 && (get_changed s).2.prev_stable_state, (get_changed s).2)

/-- `SoftwareDebounce::get_falling_edge`: `get_changed() && !prev_stable_state`. -/
def get_falling_edge (s : SoftwareDebounce) : Bool × SoftwareDebounce :=
  ((get_changed s).1 && !(get_changed s).2.prev_stable_state, (get_changed s).2)

/-- Observable edge of the two-state variant after an `update`: the flag set
by `update` is consumed and classified by the new confirmed state, exactly
the consume-and-clear reading that `get_rising_edge`/`get_falling_edge`
perform when the accessor matching the pending transition is called first. -/
def consume_edge (s : SoftwareDebounce) : debounce_edge_t × SoftwareDebounce :=
  if s.state_changed then
    ((if s.prev_stable_state then DEBOUNCE_RISING_EDGE else DEBOUNCE_FALLING_EDGE),
      { s with state_changed := false })
  else (DEBOUNCE_NO_EDGE, s)

/-- Edge stream of the two-state variant over a list of `(level, timestamp)`
samples: each tick runs `update` and then consumes the flag. -/
def sdEdges (s : SoftwareDebounce) : List (Bool × Nat) → List debounce_edge_t
  | [] => []
  | (lvl, t) :: rest =>
      (consume_edge (update s lvl t)).1 ::
        sdEdges (consume_edge (update s lvl t)).2 rest

end SoftwareDebounce

/-- Written from the spec's transition table (section 4.1), to be compared
with the source's `debounce_update`: given the polarity-corrected sample `r`
and the elapsed time `Δ` since entering a tentative state (computed, per
section 7 of the spec, by wraparound-safe subtraction on the unsigned 32-bit
counter), it yields the new state, the new timer value, and the edge. -/
def spec_transition (press_window release_window : Nat) (st : debounce_state_t)
    (timer : Nat) (r : Bool) (now : Nat) : debounce_state_t × Nat × debounce_edge_t :=
  match st with
  | DEBOUNCE_LOW =>
      if r then (DEBOUNCE_RISING, now, DEBOUNCE_NO_EDGE)
      else (DEBOUNCE_LOW, timer, DEBOUNCE_NO_EDGE)
  | DEBOUNCE_RISING =>
      if r then
        if wsub now timer ≥ press_window then (DEBOUNCE_HIGH, timer, DEBOUNCE_RISING_EDGE)
        else (DEBOUNCE_RISING, timer, DEBOUNCE_NO_EDGE)
      else (DEBOUNCE_LOW, timer, DEBOUNCE_NO_EDGE)
  | DEBOUNCE_HIGH =>
      if r then (DEBOUNCE_HIGH, timer, DEBOUNCE_NO_EDGE)
      else (DEBOUNCE_FALLING, now, DEBOUNCE_NO_EDGE)
  | DEBOUNCE_FALLING =>
      if r then (DEBOUNCE_HIGH, timer, DEBOUNCE_NO_EDGE)
      else
        if wsub now timer ≥ release_window then (DEBOUNCE_LOW, timer, DEBOUNCE_FALLING_EDGE)
        else (DEBOUNCE_FALLING, timer, DEBOUNCE_NO_EDGE)

/-- Wraparound subtraction agrees with plain subtraction when no wrap is in
range: for `b ≤ a < 2^32`, `wsub a b = a - b`. -/
theorem wsub_small {a b : Nat} (hba : b ≤ a) (ha : a < 2 ^ 32) : wsub a b = a - b := by
  unfold wsub
  omega

/-- Wraparound subtraction recovers the true elapsed duration across a
counter wrap: if the true (un-wrapped) timestamps satisfy `L ≤ T` with
`T - L < 2^32`, then subtracting the wrapped counters gives `T - L`. -/
theorem wsub_wrap {L T : Nat} (hLT : L ≤ T) (h : T - L < 2 ^ 32) :
    wsub (T % 2 ^ 32) (L % 2 ^ 32) = T - L := by
  unfold wsub
  omega

/-- C1: the four-state engine's update follows the spec's transition table
exactly: for every current state, polarity-corrected sample and timestamp,
`debounce_update` returns precisely the state, timer and edge prescribed by
the table (so each invocation returns exactly the table's single edge, and
`DEBOUNCE_NO_EDGE` whenever no threshold is crossed). -/
theorem debounce_update_follows_spec_table (s : debounce_t) (lvl : Bool) (now : Nat) :
    debounce_update s lvl now =
      ({ s with
          state := (spec_transition s.press_delay_ticks s.release_delay_ticks s.state
            s.last_update_ticks (raw_read lvl s.inverted) now).1
          last_update_ticks := (spec_transition s.press_delay_ticks s.release_delay_ticks
            s.state s.last_update_ticks (raw_read lvl s.inverted) now).2.1 },
        (spec_transition s.press_delay_ticks s.release_delay_ticks s.state
          s.last_update_ticks (raw_read lvl s.inverted) now).2.2) := by
  cases s with
  | mk inverted last press release st =>
      cases st <;> simp only [debounce_update, spec_transition] <;>
        split_ifs <;> simp_all

/-- C10: in the two-state variant a pending unread edge is preserved by
further polling: whenever `state_changed` is set, any `update` invocation,
for any raw level and timestamp, leaves both `prev_stable_state` and
`state_changed` unchanged. -/
theorem pending_edge_preserved (s : SoftwareDebounce) (lvl : Bool) (t : Nat)
    (h : s.state_changed = true) :
    (s.update lvl t).prev_stable_state = s.prev_stable_state ∧
      (s.update lvl t).state_changed = true := by
  dsimp only [SoftwareDebounce.update]
  split_ifs <;> simp_all

/-- Witness for `pending_edge_preserved` at a concrete engine state. -/
theorem pending_edge_preserved_witness :
    (SoftwareDebounce.update
        { inverted := false, cur_state := true, prev_stable_state := true,
          last_change_time := 0, delay_time := 50, state_changed := true }
        false 1000).prev_stable_state = true ∧
      (SoftwareDebounce.update
        { inverted := false, cur_state := true, prev_stable_state := true,
          last_change_time := 0, delay_time := 50, state_changed := true }
        false 1000).state_changed = true :=
  pending_edge_preserved
    { inverted := false, cur_state := true, prev_stable_state := true,
      last_change_time := 0, delay_time := 50, state_changed := true }
    false 1000 rfl

/-- Wraparound subtraction of a timestamp from itself is zero. -/
theorem wsub_self (t : Nat) : wsub t t = 0 := by
  unfold wsub
  omega

/-- C3 (amended): the two-state accessors deliver a confirmed transition at
most once, and exactly once with its correct classification when the
accessor matching the new confirmed state is the first one called while the
flag is set: a pending rising (resp. falling) transition is reported by
`get_rising_edge` (resp. `get_falling_edge`) together with the flag being
cleared; with the flag clear both accessors return false and leave the state
untouched, and after any accessor call the flag is clear, so no transition
is ever delivered twice.  (Calling the mismatched accessor first instead
consumes the flag and loses the edge; see the counterexample.) -/
theorem accessor_once_amended (s : SoftwareDebounce) :
    (s.state_changed = true → s.prev_stable_state = true →
      s.get_rising_edge = (true, { s with state_changed := false })) ∧
    (s.state_changed = true → s.prev_stable_state = false →
      s.get_falling_edge = (true, { s with state_changed := false })) ∧
    (s.state_changed = false →
      s.get_rising_edge = (false, s) ∧ s.get_falling_edge = (false, s)) ∧
    s.get_rising_edge.2.state_changed = false ∧
    s.get_falling_edge.2.state_changed = false := by
  unfold SoftwareDebounce.get_rising_edge SoftwareDebounce.get_falling_edge
    SoftwareDebounce.get_changed
  split_ifs <;> simp_all

/-- Witness for `accessor_once_amended`: a pending rising transition is
reported exactly once when `get_rising_edge` is consulted first. -/
theorem accessor_once_amended_witness :
    SoftwareDebounce.get_rising_edge
        { inverted := false, cur_state := true, prev_stable_state := true,
          last_change_time := 0, delay_time := 50, state_changed := true } =
      (true,
        { inverted := false, cur_state := true, prev_stable_state := true,
          last_change_time := 0, delay_time := 50, state_changed := false }) ∧
    SoftwareDebounce.get_rising_edge
        { inverted := false, cur_state := true, prev_stable_state := true,
          last_change_time := 0, delay_time := 50, state_changed := false } =
      (false,
        { inverted := false, cur_state := true, prev_stable_state := true,
          last_change_time := 0, delay_time := 50, state_changed := false }) :=
  ⟨(accessor_once_amended
      { inverted := false, cur_state := true, prev_stable_state := true,
        last_change_time := 0, delay_time := 50, state_changed := true }).1 rfl rfl,
   ((accessor_once_amended
      { inverted := false, cur_state := true, prev_stable_state := true,
        last_change_time := 0, delay_time := 50, state_changed := false }).2.2.1 rfl).1⟩

/-- C3 counterexample: with a rising transition pending (`state_changed`
set, new confirmed state active), calling `get_falling_edge` first returns
false yet consumes the flag, after which neither accessor ever reports the
transition — the edge is silently lost under this interleaving. -/
theorem accessor_silent_loss_cx :
    (SoftwareDebounce.get_falling_edge
        { inverted := false, cur_state := true, prev_stable_state := true,
          last_change_time := 0, delay_time := 50, state_changed := true }).1 = false ∧
    (SoftwareDebounce.get_rising_edge
        (SoftwareDebounce.get_falling_edge
          { inverted := false, cur_state := true, prev_stable_state := true,
            last_change_time := 0, delay_time := 50, state_changed := true }).2).1 = false ∧
    (SoftwareDebounce.get_falling_edge
        (SoftwareDebounce.get_falling_edge
          { inverted := false, cur_state := true, prev_stable_state := true,
            last_change_time := 0, delay_time := 50, state_changed := true }).2).1 = false := by
  decide

/-- C9 (amended): a zero stability window is accepted and disables the time
filter, but confirmation is not returned by the very first update that
observes the differing raw level: from the confirmed-low state that first
update enters the tentative state and returns `DEBOUNCE_NO_EDGE`, and the
next update still observing the level active returns `DEBOUNCE_RISING_EDGE`
whatever its timestamp.  Likewise the two-state variant with a zero window
leaves the flag clear on the update at the transition timestamp itself and
sets it on the first update whose (wraparound) elapsed time is nonzero. -/
theorem zero_window_amended (s : debounce_t) (t t' : Nat)
    (hst : s.state = DEBOUNCE_LOW) (hinv : s.inverted = false)
    (hp : s.press_delay_ticks = 0) :
    debounce_update s true t =
      ({ s with state := DEBOUNCE_RISING, last_update_ticks := t }, DEBOUNCE_NO_EDGE) ∧
    (debounce_update { s with state := DEBOUNCE_RISING, last_update_ticks := t } true t').2 =
      DEBOUNCE_RISING_EDGE ∧
    ∀ sd : SoftwareDebounce, sd.state_changed = false → sd.cur_state = false →
      sd.prev_stable_state = false → sd.inverted = false → sd.delay_time = 0 →
      (sd.update true t).state_changed = false ∧
      (wsub t' t > 0 →
        ((sd.update true t).update true t').state_changed = true ∧
        ((sd.update true t).update true t').prev_stable_state = true) := by
  refine ⟨?_, ?_, ?_⟩
  · simp [debounce_update, raw_read, hst, hinv]
  · simp [debounce_update, raw_read, hinv, hp]
  · intro sd h1 h2 h3 h4 h5
    have hstep1 : sd.update true t = { sd with cur_state := true, last_change_time := t } := by
      dsimp only [SoftwareDebounce.update, SoftwareDebounce.read_raw_state]
      rw [h4, h1, h2]
      simp [wsub_self]
    refine ⟨by rw [hstep1]; exact h1, fun ht => ?_⟩
    have hstep2 : SoftwareDebounce.update
        { sd with cur_state := true, last_change_time := t } true t' =
        { inverted := sd.inverted, cur_state := true, prev_stable_state := true,
          last_change_time := t, delay_time := sd.delay_time, state_changed := true } := by
      dsimp only [SoftwareDebounce.update, SoftwareDebounce.read_raw_state]
      rw [h4, h1, h3, h5]
      simp [ht]
    rw [hstep1, hstep2]
    exact ⟨rfl, rfl⟩

/-- Witness for `zero_window_amended` at a concrete zero-window engine. -/
theorem zero_window_amended_witness :
    debounce_update
        { inverted := false, last_update_ticks := 7, press_delay_ticks := 0,
          release_delay_ticks := 0, state := DEBOUNCE_LOW } true 5 =
      ({ inverted := false, last_update_ticks := 5, press_delay_ticks := 0,
          release_delay_ticks := 0, state := DEBOUNCE_RISING }, DEBOUNCE_NO_EDGE) ∧
    (debounce_update
        { inverted := false, last_update_ticks := 5, press_delay_ticks := 0,
          release_delay_ticks := 0, state := DEBOUNCE_RISING } true 6).2 =
      DEBOUNCE_RISING_EDGE ∧
    ((SoftwareDebounce.update
        { inverted := false, cur_state := false, prev_stable_state := false,
          last_change_time := 0, delay_time := 0, state_changed := false }
        true 5).state_changed = false ∧
      ((SoftwareDebounce.update
          (SoftwareDebounce.update
            { inverted := false, cur_state := false, prev_stable_state := false,
              last_change_time := 0, delay_time := 0, state_changed := false }
            true 5) true 6).state_changed = true ∧
        (SoftwareDebounce.update
          (SoftwareDebounce.update
            { inverted := false, cur_state := false, prev_stable_state := false,
              last_change_time := 0, delay_time := 0, state_changed := false }
            true 5) true 6).prev_stable_state = true)) := by
  have h := zero_window_amended
    { inverted := false, last_update_ticks := 7, press_delay_ticks := 0,
      release_delay_ticks := 0, state := DEBOUNCE_LOW } 5 6 rfl rfl rfl
  refine ⟨h.1, h.2.1, ?_⟩
  have h2 := h.2.2
    { inverted := false, cur_state := false, prev_stable_state := false,
      last_change_time := 0, delay_time := 0, state_changed := false }
    rfl rfl rfl rfl rfl
  exact ⟨h2.1, h2.2 (by decide)⟩

/-- Side of the confirmed/tentative pair a state belongs to: `false` for the
inactive side (`DEBOUNCE_LOW`, `DEBOUNCE_RISING`), `true` for the active side
(`DEBOUNCE_HIGH`, `DEBOUNCE_FALLING`). -/
def side : debounce_state_t → Bool
  | DEBOUNCE_LOW => false
  | DEBOUNCE_RISING => false
  | DEBOUNCE_HIGH => true
  | DEBOUNCE_FALLING => true

/-- Edges actually emitted in a result stream: the non-`DEBOUNCE_NO_EDGE`
subsequence. -/
def emitted (l : List debounce_edge_t) : List debounce_edge_t :=
  l.filter fun e => decide (e ≠ DEBOUNCE_NO_EDGE)

theorem emitted_nil : emitted [] = [] := rfl

theorem emitted_cons_no (l : List debounce_edge_t) :
    emitted (DEBOUNCE_NO_EDGE :: l) = emitted l := by
  simp [emitted]

theorem emitted_cons_ne (e : debounce_edge_t) (l : List debounce_edge_t)
    (h : e ≠ DEBOUNCE_NO_EDGE) : emitted (e :: l) = e :: emitted l := by
  simp [emitted, h]

/-- A single step changes side exactly when it emits an edge: a rising edge
moves from the inactive side to the active side, a falling edge the other
way, and a silent step stays on its side. -/
theorem side_step (s : debounce_t) (lvl : Bool) (now : Nat) :
    ((debounce_update s lvl now).2 = DEBOUNCE_NO_EDGE →
      side (debounce_update s lvl now).1.state = side s.state) ∧
    ((debounce_update s lvl now).2 = DEBOUNCE_RISING_EDGE →
      side s.state = false ∧ side (debounce_update s lvl now).1.state = true) ∧
    ((debounce_update s lvl now).2 = DEBOUNCE_FALLING_EDGE →
      side s.state = true ∧ side (debounce_update s lvl now).1.state = false) := by
  obtain ⟨inv, last, p, r, st⟩ := s
  cases st <;> dsimp only [debounce_update] <;> split_ifs <;> simp [side]

/-- Alternation invariant: along any run the emitted edges form an
alternating chain, and the first emitted edge matches the side of the
starting state. -/
theorem alt_aux (l : List (Bool × Nat)) :
    ∀ s : debounce_t,
      List.Chain' (fun a b => a ≠ b) (emitted (runEdges s l)) ∧
      ∀ e, (emitted (runEdges s l)).head? = some e →
        e = if side s.state then DEBOUNCE_FALLING_EDGE else DEBOUNCE_RISING_EDGE := by
  induction l with
  | nil => intro s; simp [runEdges, emitted_nil]
  | cons p rest ih =>
      intro s
      obtain ⟨lvl, t⟩ := p
      have hs := side_step s lvl t
      have hrun : runEdges s ((lvl, t) :: rest) =
          (debounce_update s lvl t).2 :: runEdges (debounce_update s lvl t).1 rest := rfl
      rcases he : (debounce_update s lvl t).2 with _ | _ | _
      · rw [hrun, he, emitted_cons_no]
        have hside := hs.1 he
        refine ⟨(ih (debounce_update s lvl t).1).1, ?_⟩
        intro e hhead
        rw [(ih (debounce_update s lvl t).1).2 e hhead, hside]
      · obtain ⟨hfrom, hto⟩ := hs.2.1 he
        rw [hrun, he, emitted_cons_ne _ _ (by simp)]
        constructor
        · rw [List.chain'_cons']
          refine ⟨?_, (ih (debounce_update s lvl t).1).1⟩
          intro b hb
          rw [(ih (debounce_update s lvl t).1).2 b hb, hto]
          simp
        · intro e hhead
          simp only [List.head?_cons, Option.some_inj] at hhead
          rw [← hhead, hfrom]
          simp
      · obtain ⟨hfrom, hto⟩ := hs.2.2 he
        rw [hrun, he, emitted_cons_ne _ _ (by simp)]
        constructor
        · rw [List.chain'_cons']
          refine ⟨?_, (ih (debounce_update s lvl t).1).1⟩
          intro b hb
          rw [(ih (debounce_update s lvl t).1).2 b hb, hto]
          simp
        · intro e hhead
          simp only [List.head?_cons, Option.some_inj] at hhead
          rw [← hhead, hfrom]
          simp

/-- C5: edge alternation — across any finite sequence of `debounce_update`
invocations from any initial engine state, the subsequence of emitted
(non-`DEBOUNCE_NO_EDGE`) results never contains two equal edges in a row, so
rising and falling edges strictly alternate. -/
theorem edge_alternation (s : debounce_t) (samples : List (Bool × Nat)) :
    List.Chain' (fun a b => a ≠ b) (emitted (runEdges s samples)) :=
  (alt_aux samples s).1

/-- C9 counterexample: with a zero press window, the first update at which
the raw sample differs from the confirmed-low state does not return the
rising edge (it enters the tentative state and returns `DEBOUNCE_NO_EDGE`). -/
theorem zero_window_cx :
    (debounce_update
        { inverted := false, last_update_ticks := 0, press_delay_ticks := 0,
          release_delay_ticks := 0, state := DEBOUNCE_LOW } true 5).2 ≠
      DEBOUNCE_RISING_EDGE := by
  decide

/-- Splitting a run over an appended sample list. -/
theorem runEdges_append (l1 l2 : List (Bool × Nat)) :
    ∀ s : debounce_t,
      runEdges s (l1 ++ l2) = runEdges s l1 ++ runEdges (runState s l1) l2 := by
  induction l1 with
  | nil => intro s; rfl
  | cons p rest ih =>
      intro s
      obtain ⟨lvl, t⟩ := p
      simp only [List.cons_append, runEdges, runState]
      exact congrArg _ (ih _)

/-- Holding in the rising-tentative state: while the polarity-corrected level
stays active and every sample's elapsed time since the tentative entry stays
strictly below the press window, each update returns no edge and leaves the
engine unchanged. -/
theorem rising_hold (ts : List Nat) :
    ∀ s : debounce_t, s.state = DEBOUNCE_RISING → s.inverted = false →
      (∀ u ∈ ts, s.last_update_ticks ≤ u ∧ u < 2 ^ 32 ∧
        u - s.last_update_ticks < s.press_delay_ticks) →
      runEdges s (ts.map fun u => (true, u)) = ts.map (fun _ => DEBOUNCE_NO_EDGE) ∧
      runState s (ts.map fun u => (true, u)) = s := by
  induction ts with
  | nil => intro s _ _ _; exact ⟨rfl, rfl⟩
  | cons u us ih =>
      intro s h1 h2 h3
      have hu := h3 u (List.mem_cons_self u us)
      have hstep : debounce_update s true u = (s, DEBOUNCE_NO_EDGE) := by
        obtain ⟨inv, last, p, r, st⟩ := s
        dsimp only at h1 h2 hu
        subst h1 h2
        have hws : wsub u last = u - last := wsub_small hu.1 hu.2.1
        have hlt : ¬ wsub u last ≥ p := by rw [hws]; omega
        dsimp only [debounce_update, raw_read]
        simp [hlt]
      have hrest := ih s h1 h2 fun v hv => h3 v (List.mem_cons_of_mem u hv)
      refine ⟨?_, ?_⟩
      · simp only [List.map_cons, runEdges, hstep, hrest.1]
      · simp only [List.map_cons, runState, hstep, hrest.2]

/-- Holding in the falling-tentative state: while the polarity-corrected
level stays inactive and every sample's elapsed time since the tentative
entry stays strictly below the release window, each update returns no edge
and leaves the engine unchanged. -/
theorem falling_hold (ts : List Nat) :
    ∀ s : debounce_t, s.state = DEBOUNCE_FALLING → s.inverted = false →
      (∀ u ∈ ts, s.last_update_ticks ≤ u ∧ u < 2 ^ 32 ∧
        u - s.last_update_ticks < s.release_delay_ticks) →
      runEdges s (ts.map fun u => (false, u)) = ts.map (fun _ => DEBOUNCE_NO_EDGE) ∧
      runState s (ts.map fun u => (false, u)) = s := by
  induction ts with
  | nil => intro s _ _ _; exact ⟨rfl, rfl⟩
  | cons u us ih =>
      intro s h1 h2 h3
      have hu := h3 u (List.mem_cons_self u us)
      have hstep : debounce_update s false u = (s, DEBOUNCE_NO_EDGE) := by
        obtain ⟨inv, last, p, r, st⟩ := s
        dsimp only at h1 h2 hu
        subst h1 h2
        have hws : wsub u last = u - last := wsub_small hu.1 hu.2.1
        have hlt : ¬ wsub u last ≥ r := by rw [hws]; omega
        dsimp only [debounce_update, raw_read]
        simp [hlt]
      have hrest := ih s h1 h2 fun v hv => h3 v (List.mem_cons_of_mem u hv)
      refine ⟨?_, ?_⟩
      · simp only [List.map_cons, runEdges, hstep, hrest.1]
      · simp only [List.map_cons, runState, hstep, hrest.2]

/-- Step fact: from the confirmed-low state an active sample enters the
rising-tentative state, resets the timer, and returns no edge. -/
theorem step_low_active (s : debounce_t) (hst : s.state = DEBOUNCE_LOW)
    (hinv : s.inverted = false) (t : Nat) :
    debounce_update s true t =
      ({ s with state := DEBOUNCE_RISING, last_update_ticks := t }, DEBOUNCE_NO_EDGE) := by
  obtain ⟨inv, last, p, r, st⟩ := s
  dsimp only at hst hinv
  subst hst hinv
  rfl

/-- Step fact: from the confirmed-high state an inactive sample enters the
falling-tentative state, resets the timer, and returns no edge. -/
theorem step_high_inactive (s : debounce_t) (hst : s.state = DEBOUNCE_HIGH)
    (hinv : s.inverted = false) (t : Nat) :
    debounce_update s false t =
      ({ s with state := DEBOUNCE_FALLING, last_update_ticks := t }, DEBOUNCE_NO_EDGE) := by
  obtain ⟨inv, last, p, r, st⟩ := s
  dsimp only at hst hinv
  subst hst hinv
  rfl

/-- Step fact: in the rising-tentative state an active sample whose elapsed
time reaches the press window confirms the press and returns the rising
edge. -/
theorem step_rising_fire (s : debounce_t) (hst : s.state = DEBOUNCE_RISING)
    (hinv : s.inverted = false) (t : Nat)
    (h : wsub t s.last_update_ticks ≥ s.press_delay_ticks) :
    debounce_update s true t =
      ({ s with state := DEBOUNCE_HIGH }, DEBOUNCE_RISING_EDGE) := by
  obtain ⟨inv, last, p, r, st⟩ := s
  dsimp only at hst hinv h
  subst hst hinv
  dsimp only [debounce_update, raw_read]
  simp [h]

/-- Step fact: in the falling-tentative state an inactive sample whose
elapsed time reaches the release window confirms the release and returns the
falling edge. -/
theorem step_falling_fire (s : debounce_t) (hst : s.state = DEBOUNCE_FALLING)
    (hinv : s.inverted = false) (t : Nat)
    (h : wsub t s.last_update_ticks ≥ s.release_delay_ticks) :
    debounce_update s false t =
      ({ s with state := DEBOUNCE_LOW }, DEBOUNCE_FALLING_EDGE) := by
  obtain ⟨inv, last, p, r, st⟩ := s
  dsimp only at hst hinv h
  subst hst hinv
  dsimp only [debounce_update, raw_read]
  simp [h]

/-- Step fact: in the falling-tentative state an active sample rejects the
bounce, returning to the confirmed-high state with no edge. -/
theorem step_falling_active (s : debounce_t) (hst : s.state = DEBOUNCE_FALLING)
    (hinv : s.inverted = false) (t : Nat) :
    debounce_update s true t = ({ s with state := DEBOUNCE_HIGH }, DEBOUNCE_NO_EDGE) := by
  obtain ⟨inv, last, p, r, st⟩ := s
  dsimp only at hst hinv
  subst hst hinv
  rfl

/-- C7: hysteresis independence — with `press_delay_ticks = 50` and
`release_delay_ticks = 20`, from the confirmed-active state an inactive
level sampled again 25 time units after the release was first observed
confirms the release with a falling edge (25 ≥ 20 despite 25 < 50); whereas
inactive samples confined to the first 15 time units followed by a return to
the active level yield no edge at all, in particular no falling edge. -/
theorem hysteresis_independence (s : debounce_t) (t0 tA : Nat) (mids : List Nat)
    (hst : s.state = DEBOUNCE_HIGH) (hinv : s.inverted = false)
    (hp : s.press_delay_ticks = 50) (hr : s.release_delay_ticks = 20)
    (hfit : t0 + 25 < 2 ^ 32) :
    runEdges s [(false, t0), (false, t0 + 25)] =
      [DEBOUNCE_NO_EDGE, DEBOUNCE_FALLING_EDGE] ∧
    ((∀ u ∈ mids, t0 ≤ u ∧ u ≤ t0 + 15) →
      ∀ e ∈ runEdges s (((false, t0) :: mids.map fun u => (false, u)) ++ [(true, tA)]),
        e = DEBOUNCE_NO_EDGE) := by
  have e1 := step_high_inactive s hst hinv t0
  have h1st : ({ s with state := DEBOUNCE_FALLING, last_update_ticks := t0 } : debounce_t).state
      = DEBOUNCE_FALLING := rfl
  have h1inv : ({ s with state := DEBOUNCE_FALLING, last_update_ticks := t0 } : debounce_t).inverted
      = false := hinv
  constructor
  · have hws : wsub (t0 + 25) t0 = 25 := by
      rw [wsub_small (Nat.le_add_right t0 25) hfit]
      omega
    have e2 := step_falling_fire { s with state := DEBOUNCE_FALLING, last_update_ticks := t0 }
      h1st h1inv (t0 + 25) (by dsimp only; rw [hws, hr]; omega)
    simp only [runEdges, e1, e2]
  · intro hm
    have hhold := falling_hold mids
      { s with state := DEBOUNCE_FALLING, last_update_ticks := t0 } h1st h1inv
      (by
        intro u hu
        have := hm u hu
        dsimp only
        refine ⟨this.1, by omega, by rw [hr]; omega⟩)
    have eA := step_falling_active { s with state := DEBOUNCE_FALLING, last_update_ticks := t0 }
      h1st h1inv tA
    have hall : runEdges s (((false, t0) :: mids.map fun u => (false, u)) ++ [(true, tA)]) =
        DEBOUNCE_NO_EDGE :: ((mids.map fun _ => DEBOUNCE_NO_EDGE) ++ [DEBOUNCE_NO_EDGE]) := by
      rw [List.cons_append]
      simp only [runEdges, e1]
      rw [runEdges_append, hhold.1, hhold.2]
      simp only [runEdges, eA]
    intro e he
    rw [hall] at he
    simp only [List.mem_cons, List.mem_append, List.mem_map, List.mem_singleton] at he
    rcases he with h | h | h
    · exact h
    · obtain ⟨u, _, hu⟩ := h
      exact hu.symm
    · rcases h with h | h
      · exact h
      · exact absurd h (List.not_mem_nil e)

/-- Witness for `hysteresis_independence` with the engine at concrete
configuration press 50 / release 20 and concrete sample times. -/
theorem hysteresis_independence_witness :
    runEdges
        { inverted := false, last_update_ticks := 0, press_delay_ticks := 50,
          release_delay_ticks := 20, state := DEBOUNCE_HIGH }
        [(false, 100), (false, 125)] = [DEBOUNCE_NO_EDGE, DEBOUNCE_FALLING_EDGE] ∧
    ∀ e ∈ runEdges
        { inverted := false, last_update_ticks := 0, press_delay_ticks := 50,
          release_delay_ticks := 20, state := DEBOUNCE_HIGH }
        (((false, 100) :: [105, 115].map fun u => (false, u)) ++ [(true, 120)]),
      e = DEBOUNCE_NO_EDGE := by
  have h := hysteresis_independence
    { inverted := false, last_update_ticks := 0, press_delay_ticks := 50,
      release_delay_ticks := 20, state := DEBOUNCE_HIGH } 100 120 [105, 115]
    rfl rfl rfl rfl (by decide)
  exact ⟨h.1, h.2 (by decide)⟩

/-- Normal form of `SoftwareDebounce::update` for non-inverted polarity: a
sample equal to the current raw state can only run the stability check
(which flips the confirmed state and sets the flag when the flag is clear,
the elapsed time strictly exceeds the delay, and the raw state disagrees
with the confirmed one), while a differing sample records the raw change and
resets the timer, the stability check then failing at zero elapsed time. -/
theorem update_eq (s : SoftwareDebounce) (lvl : Bool) (t : Nat)
    (hinv : s.inverted = false) :
    s.update lvl t =
      if lvl = s.cur_state then
        if s.state_changed = false ∧ s.delay_time < wsub t s.last_change_time ∧
            ¬ s.cur_state = s.prev_stable_state then
          { s with prev_stable_state := s.cur_state, state_changed := true }
        else s
      else { s with cur_state := lvl, last_change_time := t } := by
  obtain ⟨inv, cur, prev, last, delay, flag⟩ := s
  dsimp only at hinv
  subst hinv
  cases cur <;> cases prev <;> cases flag <;> cases lvl <;>
    simp [SoftwareDebounce.update, SoftwareDebounce.read_raw_state, wsub_self]

/-- C2 (amended): exact-threshold confirmation is inclusive for the
four-state variant and exclusive for the two-state variant.  Four-state:
from the confirmed-low state, a level held active from time `v` through
intermediate samples strictly inside the window emits no edge until the
update at elapsed time exactly `press_delay_ticks`, which emits the single
rising edge.  Two-state: with `delay_time` equal to the same window, the
update at elapsed time exactly the window emits nothing, and the edge
appears at elapsed time window + 1 (the comparison at
`src/arduino/debounce/src/main.cpp:48` is strict `>`, the one at
`src/esp-idf/debounce_fsm/src/main.c:112` is inclusive `>=`). -/
theorem exact_threshold_amended (press release v : Nat) (mids : List Nat) (s : debounce_t)
    (hst : s.state = DEBOUNCE_LOW) (hinv : s.inverted = false)
    (hp : s.press_delay_ticks = press) (hr : s.release_delay_ticks = release)
    (hv : v + press + 1 < 2 ^ 32)
    (hm : ∀ u ∈ mids, v ≤ u ∧ u - v < press) :
    runEdges s (((v :: mids) ++ [v + press]).map fun u => (true, u)) =
      ((v :: mids).map fun _ => DEBOUNCE_NO_EDGE) ++ [DEBOUNCE_RISING_EDGE] ∧
    ∀ sd : SoftwareDebounce, sd.state_changed = false → sd.cur_state = false →
      sd.prev_stable_state = false → sd.inverted = false → sd.delay_time = press →
      sd.sdEdges [(true, v), (true, v + press)] =
        [DEBOUNCE_NO_EDGE, DEBOUNCE_NO_EDGE] ∧
      sd.sdEdges [(true, v), (true, v + press + 1)] =
        [DEBOUNCE_NO_EDGE, DEBOUNCE_RISING_EDGE] := by
  have hws : wsub (v + press) v = press := by
    rw [wsub_small (Nat.le_add_right v press) (by omega)]
    omega
  have hws1 : wsub (v + press + 1) v = press + 1 := by
    rw [wsub_small (by omega) hv]
    omega
  constructor
  · have e1 := step_low_active s hst hinv v
    have h1st : ({ s with state := DEBOUNCE_RISING, last_update_ticks := v } : debounce_t).state
        = DEBOUNCE_RISING := rfl
    have h1inv : ({ s with state := DEBOUNCE_RISING, last_update_ticks := v } : debounce_t).inverted
        = false := hinv
    have hhold := rising_hold mids
      { s with state := DEBOUNCE_RISING, last_update_ticks := v } h1st h1inv
      (by
        intro u hu
        have := hm u hu
        dsimp only
        refine ⟨this.1, by omega, by rw [hp]; omega⟩)
    have e2 := step_rising_fire { s with state := DEBOUNCE_RISING, last_update_ticks := v }
      h1st h1inv (v + press) (by dsimp only; rw [hws, hp])
    rw [List.map_append, List.map_cons, List.cons_append]
    simp only [runEdges, e1]
    rw [runEdges_append, hhold.1, hhold.2]
    simp only [runEdges, e2]
    rw [List.map_cons, List.cons_append]
  · intro sd h1 h2 h3 h4 h5
    have hstep1 : sd.update true v = { sd with cur_state := true, last_change_time := v } := by
      rw [update_eq sd true v h4, if_neg (by rw [h2]; simp)]
    have hcons1 : SoftwareDebounce.consume_edge
        { sd with cur_state := true, last_change_time := v } =
        (DEBOUNCE_NO_EDGE, { sd with cur_state := true, last_change_time := v }) := by
      dsimp only [SoftwareDebounce.consume_edge]
      rw [if_neg]
      simp [h1]
    have hstep2 : SoftwareDebounce.update
        { sd with cur_state := true, last_change_time := v } true (v + press) =
        { sd with cur_state := true, last_change_time := v } := by
      rw [update_eq { sd with cur_state := true, last_change_time := v } true (v + press) h4,
        if_pos rfl, if_neg]
      dsimp only
      rw [h5, hws]
      intro h
      exact absurd h.2.1 (lt_irrefl press)
    have hstep2' : SoftwareDebounce.update
        { sd with cur_state := true, last_change_time := v } true (v + press + 1) =
        { inverted := sd.inverted, cur_state := true, prev_stable_state := true,
          last_change_time := v, delay_time := sd.delay_time, state_changed := true } := by
      rw [update_eq { sd with cur_state := true, last_change_time := v } true (v + press + 1) h4,
        if_pos rfl, if_pos]
      dsimp only
      rw [h5, hws1, h3]
      exact ⟨h1, by omega, by simp⟩
    constructor
    · show (SoftwareDebounce.consume_edge (sd.update true v)).1 ::
        SoftwareDebounce.sdEdges (SoftwareDebounce.consume_edge (sd.update true v)).2
          [(true, v + press)] = _
      rw [hstep1, hcons1]
      show _ :: (SoftwareDebounce.consume_edge (SoftwareDebounce.update _ true (v + press))).1
        :: SoftwareDebounce.sdEdges _ [] = _
      rw [hstep2, hcons1]
      rfl
    · show (SoftwareDebounce.consume_edge (sd.update true v)).1 ::
        SoftwareDebounce.sdEdges (SoftwareDebounce.consume_edge (sd.update true v)).2
          [(true, v + press + 1)] = _
      rw [hstep1, hcons1]
      show _ :: (SoftwareDebounce.consume_edge (SoftwareDebounce.update _ true (v + press + 1))).1
        :: SoftwareDebounce.sdEdges _ [] = _
      rw [hstep2']
      simp [SoftwareDebounce.consume_edge, SoftwareDebounce.sdEdges]

/-- Witness for `exact_threshold_amended` with window 50, start time 0 and
one intermediate sample at 25. -/
theorem exact_threshold_amended_witness :
    runEdges
        { inverted := false, last_update_ticks := 0, press_delay_ticks := 50,
          release_delay_ticks := 50, state := DEBOUNCE_LOW }
        (((0 :: [25]) ++ [0 + 50]).map fun u => (true, u)) =
      ((0 :: [25]).map fun _ => DEBOUNCE_NO_EDGE) ++ [DEBOUNCE_RISING_EDGE] ∧
    SoftwareDebounce.sdEdges
        { inverted := false, cur_state := false, prev_stable_state := false,
          last_change_time := 0, delay_time := 50, state_changed := false }
        [(true, 0), (true, 0 + 50)] = [DEBOUNCE_NO_EDGE, DEBOUNCE_NO_EDGE] ∧
    SoftwareDebounce.sdEdges
        { inverted := false, cur_state := false, prev_stable_state := false,
          last_change_time := 0, delay_time := 50, state_changed := false }
        [(true, 0), (true, 0 + 50 + 1)] = [DEBOUNCE_NO_EDGE, DEBOUNCE_RISING_EDGE] := by
  have h := exact_threshold_amended 50 50 0 [25]
    { inverted := false, last_update_ticks := 0, press_delay_ticks := 50,
      release_delay_ticks := 50, state := DEBOUNCE_LOW }
    rfl rfl rfl rfl (by decide) (by decide)
  have h2 := h.2
    { inverted := false, cur_state := false, prev_stable_state := false,
      last_change_time := 0, delay_time := 50, state_changed := false }
    rfl rfl rfl rfl rfl
  exact ⟨h.1, h2.1, h2.2⟩

/-- C2 counterexample: in the two-state variant with `delay_time = 50`, a
level held active from time 0 and sampled again at elapsed time exactly 50
produces no edge at all — the comparison at
`src/arduino/debounce/src/main.cpp:48` is strict, so exact-threshold
confirmation is not inclusive there, contrary to the claim. -/
theorem two_state_exact_threshold_cx :
    SoftwareDebounce.sdEdges
        { inverted := false, cur_state := false, prev_stable_state := false,
          last_change_time := 0, delay_time := 50, state_changed := false }
        [(true, 0), (true, 50)] = [DEBOUNCE_NO_EDGE, DEBOUNCE_NO_EDGE] ∧
    DEBOUNCE_RISING_EDGE ∉
      SoftwareDebounce.sdEdges
        { inverted := false, cur_state := false, prev_stable_state := false,
          last_change_time := 0, delay_time := 50, state_changed := false }
        [(true, 0), (true, 50)] := by
  decide

/-- Reference update written from the spec's wraparound requirement (section
7): the same state machine evaluated on true, un-wrapped monotonic
timestamps, with elapsed time as plain subtraction — "the true elapsed
duration" the wraparound-safe computation must recover. -/
def debounce_update_unwrapped (self : debounce_t) (lvl : Bool) (now : Nat) :
    debounce_t × debounce_edge_t :=
  let raw := raw_read lvl self.inverted
  match self.state with
  | DEBOUNCE_LOW =>
      if raw then
        ({ self with state := DEBOUNCE_RISING, last_update_ticks := now }, DEBOUNCE_NO_EDGE)
      else
        (self, DEBOUNCE_NO_EDGE)
  | DEBOUNCE_RISING =>
      if raw then
        if now - self.last_update_ticks ≥ self.press_delay_ticks then
          ({ self with state := DEBOUNCE_HIGH }, DEBOUNCE_RISING_EDGE)
        else
          (self, DEBOUNCE_NO_EDGE)
      else
        ({ self with state := DEBOUNCE_LOW }, DEBOUNCE_NO_EDGE)
  | DEBOUNCE_HIGH =>
      if !raw then
        ({ self with state := DEBOUNCE_FALLING, last_update_ticks := now }, DEBOUNCE_NO_EDGE)
      else
        (self, DEBOUNCE_NO_EDGE)
  | DEBOUNCE_FALLING =>
      if !raw then
        if now - self.last_update_ticks ≥ self.release_delay_ticks then
          ({ self with state := DEBOUNCE_LOW }, DEBOUNCE_FALLING_EDGE)
        else
          (self, DEBOUNCE_NO_EDGE)
      else
        ({ self with state := DEBOUNCE_HIGH }, DEBOUNCE_NO_EDGE)

/-- C8: clock-wraparound safety — elapsed time is computed by modular
subtraction on the 32-bit tick counter, so for true timestamps `L ≤ T` less
than `2^32` apart, subtracting the wrapped counters `T % 2^32` and
`L % 2^32` (including when the former is numerically smaller) yields the
true elapsed duration, and `debounce_update` run on the wrapped counters
returns the same edge, the same successor state, and the wrapped image of
the same timer value as the reference machine run on the un-wrapped
timestamps. -/
theorem wraparound_safe_elapsed (s : debounce_t) (lvl : Bool) (L T : Nat)
    (hLT : L ≤ T) (hspan : T - L < 2 ^ 32) :
    wsub (T % 2 ^ 32) (L % 2 ^ 32) = T - L ∧
    (debounce_update { s with last_update_ticks := L % 2 ^ 32 } lvl (T % 2 ^ 32)).2 =
      (debounce_update_unwrapped { s with last_update_ticks := L } lvl T).2 ∧
    (debounce_update { s with last_update_ticks := L % 2 ^ 32 } lvl (T % 2 ^ 32)).1.state =
      (debounce_update_unwrapped { s with last_update_ticks := L } lvl T).1.state ∧
    (debounce_update { s with last_update_ticks := L % 2 ^ 32 }
        lvl (T % 2 ^ 32)).1.last_update_ticks =
      (debounce_update_unwrapped { s with last_update_ticks := L }
        lvl T).1.last_update_ticks % 2 ^ 32 := by
  have hw := wsub_wrap hLT hspan
  obtain ⟨inv, last, p, r, st⟩ := s
  refine ⟨hw, ?_⟩
  cases st <;>
      dsimp only [debounce_update, debounce_update_unwrapped, raw_read] <;>
      (try simp only [hw]) <;>
    split_ifs <;> simp

/-- Witness for `wraparound_safe_elapsed` across an actual counter wrap: the
true timestamps straddle `2^32`, so the wrapped `now` is numerically smaller
than the wrapped timer value, yet the rising edge fires identically. -/
theorem wraparound_safe_elapsed_witness :
    wsub (4294967301 % 2 ^ 32) (4294967293 % 2 ^ 32) = 4294967301 - 4294967293 ∧
    (debounce_update
        { inverted := false, last_update_ticks := 4294967293 % 2 ^ 32,
          press_delay_ticks := 5, release_delay_ticks := 5, state := DEBOUNCE_RISING }
        true (4294967301 % 2 ^ 32)).2 =
      (debounce_update_unwrapped
        { inverted := false, last_update_ticks := 4294967293,
          press_delay_ticks := 5, release_delay_ticks := 5, state := DEBOUNCE_RISING }
        true 4294967301).2 ∧
    (debounce_update
        { inverted := false, last_update_ticks := 4294967293 % 2 ^ 32,
          press_delay_ticks := 5, release_delay_ticks := 5, state := DEBOUNCE_RISING }
        true (4294967301 % 2 ^ 32)).1.state =
      (debounce_update_unwrapped
        { inverted := false, last_update_ticks := 4294967293,
          press_delay_ticks := 5, release_delay_ticks := 5, state := DEBOUNCE_RISING }
        true 4294967301).1.state ∧
    (debounce_update
        { inverted := false, last_update_ticks := 4294967293 % 2 ^ 32,
          press_delay_ticks := 5, release_delay_ticks := 5, state := DEBOUNCE_RISING }
        true (4294967301 % 2 ^ 32)).1.last_update_ticks =
      (debounce_update_unwrapped
        { inverted := false, last_update_ticks := 4294967293,
          press_delay_ticks := 5, release_delay_ticks := 5, state := DEBOUNCE_RISING }
        true 4294967301).1.last_update_ticks % 2 ^ 32 :=
  wraparound_safe_elapsed
    { inverted := false, last_update_ticks := 0,
      press_delay_ticks := 5, release_delay_ticks := 5, state := DEBOUNCE_RISING }
    true 4294967293 4294967301 (by decide) (by decide)

/-- Step fact: from the confirmed-low state an inactive sample changes
nothing. -/
theorem step_low_inactive (s : debounce_t) (hst : s.state = DEBOUNCE_LOW)
    (hinv : s.inverted = false) (t : Nat) :
    debounce_update s false t = (s, DEBOUNCE_NO_EDGE) := by
  obtain ⟨inv, last, p, r, st⟩ := s
  dsimp only at hst hinv
  subst hst hinv
  rfl

/-- Step fact: from the confirmed-high state an active sample changes
nothing. -/
theorem step_high_active (s : debounce_t) (hst : s.state = DEBOUNCE_HIGH)
    (hinv : s.inverted = false) (t : Nat) :
    debounce_update s true t = (s, DEBOUNCE_NO_EDGE) := by
  obtain ⟨inv, last, p, r, st⟩ := s
  dsimp only at hst hinv
  subst hst hinv
  rfl

/-- Step fact: in the rising-tentative state an active sample below the
press window changes nothing. -/
theorem step_rising_stay (s : debounce_t) (hst : s.state = DEBOUNCE_RISING)
    (hinv : s.inverted = false) (t : Nat)
    (h : ¬ wsub t s.last_update_ticks ≥ s.press_delay_ticks) :
    debounce_update s true t = (s, DEBOUNCE_NO_EDGE) := by
  obtain ⟨inv, last, p, r, st⟩ := s
  dsimp only at hst hinv h
  subst hst hinv
  dsimp only [debounce_update, raw_read]
  simp [h]

/-- Step fact: in the rising-tentative state an inactive sample rejects the
bounce, returning to the confirmed-low state with no edge. -/
theorem step_rising_drop (s : debounce_t) (hst : s.state = DEBOUNCE_RISING)
    (hinv : s.inverted = false) (t : Nat) :
    debounce_update s false t = ({ s with state := DEBOUNCE_LOW }, DEBOUNCE_NO_EDGE) := by
  obtain ⟨inv, last, p, r, st⟩ := s
  dsimp only at hst hinv
  subst hst hinv
  rfl

/-- Step fact: in the falling-tentative state an inactive sample below the
release window changes nothing. -/
theorem step_falling_stay (s : debounce_t) (hst : s.state = DEBOUNCE_FALLING)
    (hinv : s.inverted = false) (t : Nat)
    (h : ¬ wsub t s.last_update_ticks ≥ s.release_delay_ticks) :
    debounce_update s false t = (s, DEBOUNCE_NO_EDGE) := by
  obtain ⟨inv, last, p, r, st⟩ := s
  dsimp only at hst hinv h
  subst hst hinv
  dsimp only [debounce_update, raw_read]
  simp [h]

/-- Boundedness of an oscillating sample train, tracked with the value and
start time of the current constant run: timestamps are monotone 32-bit tick
values, and within each constant run the elapsed time since the run's first
sample stays strictly below the window configured for that level (press for
active runs, release for inactive runs). -/
def osc_bounded (press release : Nat) : Option (Bool × Nat) → List (Bool × Nat) → Bool
  | _, [] => true
  | none, (c, t) :: l =>
      decide (t < 2 ^ 32) && osc_bounded press release (some (c, t)) l
  | some (b, t0), (c, t) :: l =>
      if c = b then
        decide (t0 ≤ t) && decide (t < 2 ^ 32) &&
          decide (t - t0 < (if b then press else release)) &&
          osc_bounded press release (some (b, t0)) l
      else
        decide (t0 ≤ t) && decide (t < 2 ^ 32) &&
          osc_bounded press release (some (c, t)) l

/-- Invariant tying the engine state to the current-run tracker: a confirmed
state is compatible with no run or with a run of the level that has not yet
flipped it, and a tentative state carries exactly the current run's value
and start time in its timer. -/
def osc_inv (s : debounce_t) : Option (Bool × Nat) → Prop
  | none =>
      s.state = DEBOUNCE_LOW ∨ s.state = DEBOUNCE_HIGH
  | some (b, t0) =>
      (s.state = DEBOUNCE_LOW ∧ b = false) ∨
      (s.state = DEBOUNCE_HIGH ∧ b = true) ∨
      (s.state = DEBOUNCE_RISING ∧ b = true ∧ t0 = s.last_update_ticks ∧ t0 < 2 ^ 32) ∨
      (s.state = DEBOUNCE_FALLING ∧ b = false ∧ t0 = s.last_update_ticks ∧ t0 < 2 ^ 32)

theorem osc_bounded_none_cons {pr re : Nat} {c : Bool} {t : Nat} {l : List (Bool × Nat)} :
    osc_bounded pr re none ((c, t) :: l) = true ↔
      t < 2 ^ 32 ∧ osc_bounded pr re (some (c, t)) l = true := by
  simp [osc_bounded]

theorem osc_bounded_true_cons {pr re t0 t : Nat} {l : List (Bool × Nat)} :
    osc_bounded pr re (some (true, t0)) ((true, t) :: l) = true ↔
      t0 ≤ t ∧ t < 2 ^ 32 ∧ t - t0 < pr ∧
        osc_bounded pr re (some (true, t0)) l = true := by
  simp [osc_bounded, and_assoc]

theorem osc_bounded_false_cons {pr re t0 t : Nat} {l : List (Bool × Nat)} :
    osc_bounded pr re (some (false, t0)) ((false, t) :: l) = true ↔
      t0 ≤ t ∧ t < 2 ^ 32 ∧ t - t0 < re ∧
        osc_bounded pr re (some (false, t0)) l = true := by
  simp [osc_bounded, and_assoc]

theorem osc_bounded_tf_cons {pr re t0 t : Nat} {l : List (Bool × Nat)} :
    osc_bounded pr re (some (false, t0)) ((true, t) :: l) = true ↔
      t0 ≤ t ∧ t < 2 ^ 32 ∧ osc_bounded pr re (some (true, t)) l = true := by
  simp [osc_bounded, and_assoc]

theorem osc_bounded_ft_cons {pr re t0 t : Nat} {l : List (Bool × Nat)} :
    osc_bounded pr re (some (true, t0)) ((false, t) :: l) = true ↔
      t0 ≤ t ∧ t < 2 ^ 32 ∧ osc_bounded pr re (some (false, t)) l = true := by
  simp [osc_bounded, and_assoc]

/-- Bounce-rejection invariant: from a state compatible with the current-run
tracker, a bounded oscillation produces no edge at any step. -/
theorem osc_aux (l : List (Bool × Nat)) :
    ∀ (s : debounce_t) (acc : Option (Bool × Nat)), s.inverted = false →
      osc_inv s acc →
      osc_bounded s.press_delay_ticks s.release_delay_ticks acc l = true →
      ∀ e ∈ runEdges s l, e = DEBOUNCE_NO_EDGE := by
  induction l with
  | nil => intro s acc _ _ _ e he; simp [runEdges] at he
  | cons p rest ih =>
      intro s acc hinv hI hB e he
      obtain ⟨c, t⟩ := p
      rcases acc with _ | ⟨b, t0⟩
      · rw [osc_bounded_none_cons] at hB
        obtain ⟨ht32, hB'⟩ := hB
        rcases hI with hst | hst
        · cases c
          · have hstep := step_low_inactive s hst hinv t
            simp only [runEdges, hstep, List.mem_cons] at he
            rcases he with rfl | he
            · rfl
            · exact ih s (some (false, t)) hinv (Or.inl ⟨hst, rfl⟩) hB' e he
          · have hstep := step_low_active s hst hinv t
            simp only [runEdges, hstep, List.mem_cons] at he
            rcases he with rfl | he
            · rfl
            · exact ih { s with state := DEBOUNCE_RISING, last_update_ticks := t }
                (some (true, t)) hinv
                (Or.inr (Or.inr (Or.inl ⟨rfl, rfl, rfl, ht32⟩))) hB' e he
        · cases c
          · have hstep := step_high_inactive s hst hinv t
            simp only [runEdges, hstep, List.mem_cons] at he
            rcases he with rfl | he
            · rfl
            · exact ih { s with state := DEBOUNCE_FALLING, last_update_ticks := t }
                (some (false, t)) hinv
                (Or.inr (Or.inr (Or.inr ⟨rfl, rfl, rfl, ht32⟩))) hB' e he
          · have hstep := step_high_active s hst hinv t
            simp only [runEdges, hstep, List.mem_cons] at he
            rcases he with rfl | he
            · rfl
            · exact ih s (some (true, t)) hinv (Or.inr (Or.inl ⟨hst, rfl⟩)) hB' e he
      · rcases hI with ⟨hst, hb⟩ | ⟨hst, hb⟩ | ⟨hst, hb, ht0, h32⟩ | ⟨hst, hb, ht0, h32⟩
        · subst hb
          cases c
          · rw [osc_bounded_false_cons] at hB
            obtain ⟨hle, ht32, hlt, hB'⟩ := hB
            have hstep := step_low_inactive s hst hinv t
            simp only [runEdges, hstep, List.mem_cons] at he
            rcases he with rfl | he
            · rfl
            · exact ih s (some (false, t0)) hinv (Or.inl ⟨hst, rfl⟩) hB' e he
          · rw [osc_bounded_tf_cons] at hB
            obtain ⟨hle, ht32, hB'⟩ := hB
            have hstep := step_low_active s hst hinv t
            simp only [runEdges, hstep, List.mem_cons] at he
            rcases he with rfl | he
            · rfl
            · exact ih { s with state := DEBOUNCE_RISING, last_update_ticks := t }
                (some (true, t)) hinv
                (Or.inr (Or.inr (Or.inl ⟨rfl, rfl, rfl, ht32⟩))) hB' e he
        · subst hb
          cases c
          · rw [osc_bounded_ft_cons] at hB
            obtain ⟨hle, ht32, hB'⟩ := hB
            have hstep := step_high_inactive s hst hinv t
            simp only [runEdges, hstep, List.mem_cons] at he
            rcases he with rfl | he
            · rfl
            · exact ih { s with state := DEBOUNCE_FALLING, last_update_ticks := t }
                (some (false, t)) hinv
                (Or.inr (Or.inr (Or.inr ⟨rfl, rfl, rfl, ht32⟩))) hB' e he
          · rw [osc_bounded_true_cons] at hB
            obtain ⟨hle, ht32, hlt, hB'⟩ := hB
            have hstep := step_high_active s hst hinv t
            simp only [runEdges, hstep, List.mem_cons] at he
            rcases he with rfl | he
            · rfl
            · exact ih s (some (true, t0)) hinv (Or.inr (Or.inl ⟨hst, rfl⟩)) hB' e he
        · subst hb
          cases c
          · rw [osc_bounded_ft_cons] at hB
            obtain ⟨hle, ht32, hB'⟩ := hB
            have hstep := step_rising_drop s hst hinv t
            simp only [runEdges, hstep, List.mem_cons] at he
            rcases he with rfl | he
            · rfl
            · exact ih { s with state := DEBOUNCE_LOW } (some (false, t)) hinv
                (Or.inl ⟨rfl, rfl⟩) hB' e he
          · rw [osc_bounded_true_cons] at hB
            obtain ⟨hle, ht32, hlt, hB'⟩ := hB
            have hno : ¬ wsub t s.last_update_ticks ≥ s.press_delay_ticks := by
              rw [← ht0, wsub_small hle ht32]
              omega
            have hstep := step_rising_stay s hst hinv t hno
            simp only [runEdges, hstep, List.mem_cons] at he
            rcases he with rfl | he
            · rfl
            · exact ih s (some (true, t0)) hinv
                (Or.inr (Or.inr (Or.inl ⟨hst, rfl, ht0, h32⟩))) hB' e he
        · subst hb
          cases c
          · rw [osc_bounded_false_cons] at hB
            obtain ⟨hle, ht32, hlt, hB'⟩ := hB
            have hno : ¬ wsub t s.last_update_ticks ≥ s.release_delay_ticks := by
              rw [← ht0, wsub_small hle ht32]
              omega
            have hstep := step_falling_stay s hst hinv t hno
            simp only [runEdges, hstep, List.mem_cons] at he
            rcases he with rfl | he
            · rfl
            · exact ih s (some (false, t0)) hinv
                (Or.inr (Or.inr (Or.inr ⟨hst, rfl, ht0, h32⟩))) hB' e he
          · rw [osc_bounded_tf_cons] at hB
            obtain ⟨hle, ht32, hB'⟩ := hB
            have hstep := step_falling_active s hst hinv t
            simp only [runEdges, hstep, List.mem_cons] at he
            rcases he with rfl | he
            · rfl
            · exact ih { s with state := DEBOUNCE_HIGH } (some (true, t)) hinv
                (Or.inr (Or.inl ⟨rfl, rfl⟩)) hB' e he

/-- C6: bounce rejection — starting from either confirmed state, any sample
train whose constant runs each keep their elapsed time (measured from the
run's first sample, i.e. from the most recent raw transition the engine can
observe) strictly below the window configured for that level never produces
an edge: every `debounce_update` invocation returns `DEBOUNCE_NO_EDGE`.  In
particular a train flipping between active and inactive on every sample
never emits an edge. -/
theorem bounce_rejection (s : debounce_t) (samples : List (Bool × Nat))
    (hinv : s.inverted = false)
    (hconf : s.state = DEBOUNCE_LOW ∨ s.state = DEBOUNCE_HIGH)
    (hB : osc_bounded s.press_delay_ticks s.release_delay_ticks none samples = true) :
    ∀ e ∈ runEdges s samples, e = DEBOUNCE_NO_EDGE :=
  osc_aux samples s none hinv hconf hB

/-- Witness for `bounce_rejection`: with a 50-tick press window, samples
flipping between active and inactive every 10 ticks produce no edge at any
of the seven updates. -/
theorem bounce_rejection_witness :
    runEdges
        { inverted := false, last_update_ticks := 0, press_delay_ticks := 50,
          release_delay_ticks := 50, state := DEBOUNCE_LOW }
        [(true, 0), (false, 10), (true, 20), (false, 30), (true, 40), (false, 50),
          (true, 60)] =
      List.replicate 7 DEBOUNCE_NO_EDGE := by
  have h := bounce_rejection
    { inverted := false, last_update_ticks := 0, press_delay_ticks := 50,
      release_delay_ticks := 50, state := DEBOUNCE_LOW }
    [(true, 0), (false, 10), (true, 20), (false, 30), (true, 40), (false, 50), (true, 60)]
    rfl (Or.inl rfl) (by decide)
  have h2 := List.eq_replicate_of_mem h
  simpa using h2

theorem consume_edge_clear (s : SoftwareDebounce) (h : s.state_changed = false) :
    SoftwareDebounce.consume_edge s = (DEBOUNCE_NO_EDGE, s) := by
  simp [SoftwareDebounce.consume_edge, h]

theorem consume_edge_set (s : SoftwareDebounce) (h : s.state_changed = true) :
    SoftwareDebounce.consume_edge s =
      ((if s.prev_stable_state then DEBOUNCE_RISING_EDGE else DEBOUNCE_FALLING_EDGE),
        { s with state_changed := false }) := by
  simp [SoftwareDebounce.consume_edge, h]

/-- Simulation relation between a two-state engine with no pending flag and
a four-state engine: both non-inverted, the four-state windows both one tick
longer than the shared two-state delay (the strict `>` of the two-state
stability check equals `≥` against delay + 1), and the four-state state the
image of the confirmed/raw pair, with the tentative timer equal to the
two-state change timestamp. -/
def twoFourRel (sd : SoftwareDebounce) (d : debounce_t) : Prop :=
  sd.state_changed = false ∧ sd.inverted = false ∧ d.inverted = false ∧
  d.press_delay_ticks = sd.delay_time + 1 ∧
  d.release_delay_ticks = sd.delay_time + 1 ∧
  ((sd.prev_stable_state = false ∧ sd.cur_state = false ∧ d.state = DEBOUNCE_LOW) ∨
   (sd.prev_stable_state = false ∧ sd.cur_state = true ∧ d.state = DEBOUNCE_RISING ∧
      d.last_update_ticks = sd.last_change_time) ∨
   (sd.prev_stable_state = true ∧ sd.cur_state = true ∧ d.state = DEBOUNCE_HIGH) ∨
   (sd.prev_stable_state = true ∧ sd.cur_state = false ∧ d.state = DEBOUNCE_FALLING ∧
      d.last_update_ticks = sd.last_change_time))

/-- One step preserves the simulation relation and produces the same
observable edge on both sides. -/
theorem two_four_step (sd : SoftwareDebounce) (d : debounce_t) (lvl : Bool) (t : Nat)
    (h : twoFourRel sd d) :
    twoFourRel (SoftwareDebounce.consume_edge (sd.update lvl t)).2
        (debounce_update d lvl t).1 ∧
      (SoftwareDebounce.consume_edge (sd.update lvl t)).1 = (debounce_update d lvl t).2 := by
  obtain ⟨hflag, hsinv, hdinv, hpress, hrel, hst⟩ := h
  rw [update_eq sd lvl t hsinv]
  rcases hst with ⟨hprev, hcur, hdst⟩ | ⟨hprev, hcur, hdst, hlast⟩ |
    ⟨hprev, hcur, hdst⟩ | ⟨hprev, hcur, hdst, hlast⟩
  · -- confirmed low, raw low
    cases lvl
    · rw [if_pos hcur.symm, if_neg (by simp [hcur, hprev]),
        step_low_inactive d hdst hdinv t, consume_edge_clear sd hflag]
      exact ⟨⟨hflag, hsinv, hdinv, hpress, hrel, Or.inl ⟨hprev, hcur, hdst⟩⟩, rfl⟩
    · rw [if_neg (by simp [hcur]), step_low_active d hdst hdinv t,
        consume_edge_clear { sd with cur_state := true, last_change_time := t } hflag]
      exact ⟨⟨hflag, hsinv, hdinv, hpress, hrel,
        Or.inr (Or.inl ⟨hprev, rfl, rfl, rfl⟩)⟩, rfl⟩
  · -- rising tentative
    cases lvl
    · rw [if_neg (by simp [hcur]), step_rising_drop d hdst hdinv t,
        consume_edge_clear { sd with cur_state := false, last_change_time := t } hflag]
      exact ⟨⟨hflag, hsinv, hdinv, hpress, hrel,
        Or.inl ⟨hprev, rfl, rfl⟩⟩, rfl⟩
    · by_cases hth : sd.delay_time < wsub t sd.last_change_time
      · rw [if_pos hcur.symm, if_pos ⟨hflag, hth, by simp [hcur, hprev]⟩,
          step_rising_fire d hdst hdinv t (by rw [hlast, hpress]; omega),
          consume_edge_set
            { sd with prev_stable_state := sd.cur_state, state_changed := true } rfl]
        refine ⟨⟨rfl, hsinv, hdinv, hpress, hrel,
          Or.inr (Or.inr (Or.inl ⟨by simp [hcur], by simp [hcur], rfl⟩))⟩, by simp [hcur]⟩
      · rw [if_pos hcur.symm, if_neg (by intro hc; exact hth hc.2.1),
          step_rising_stay d hdst hdinv t (by rw [hlast, hpress]; omega),
          consume_edge_clear sd hflag]
        exact ⟨⟨hflag, hsinv, hdinv, hpress, hrel,
          Or.inr (Or.inl ⟨hprev, hcur, hdst, hlast⟩)⟩, rfl⟩
  · -- confirmed high, raw high
    cases lvl
    · rw [if_neg (by simp [hcur]), step_high_inactive d hdst hdinv t,
        consume_edge_clear { sd with cur_state := false, last_change_time := t } hflag]
      exact ⟨⟨hflag, hsinv, hdinv, hpress, hrel,
        Or.inr (Or.inr (Or.inr ⟨hprev, rfl, rfl, rfl⟩))⟩, rfl⟩
    · rw [if_pos hcur.symm, if_neg (by simp [hcur, hprev]),
        step_high_active d hdst hdinv t, consume_edge_clear sd hflag]
      exact ⟨⟨hflag, hsinv, hdinv, hpress, hrel,
        Or.inr (Or.inr (Or.inl ⟨hprev, hcur, hdst⟩))⟩, rfl⟩
  · -- falling tentative
    cases lvl
    · by_cases hth : sd.delay_time < wsub t sd.last_change_time
      · rw [if_pos hcur.symm, if_pos ⟨hflag, hth, by simp [hcur, hprev]⟩,
          step_falling_fire d hdst hdinv t (by rw [hlast, hrel]; omega),
          consume_edge_set
            { sd with prev_stable_state := sd.cur_state, state_changed := true } rfl]
        refine ⟨⟨rfl, hsinv, hdinv, hpress, hrel,
          Or.inl ⟨by simp [hcur], by simp [hcur], rfl⟩⟩, by simp [hcur]⟩
      · rw [if_pos hcur.symm, if_neg (by intro hc; exact hth hc.2.1),
          step_falling_stay d hdst hdinv t (by rw [hlast, hrel]; omega),
          consume_edge_clear sd hflag]
        exact ⟨⟨hflag, hsinv, hdinv, hpress, hrel,
          Or.inr (Or.inr (Or.inr ⟨hprev, hcur, hdst, hlast⟩))⟩, rfl⟩
    · rw [if_neg (by simp [hcur]), step_falling_active d hdst hdinv t,
        consume_edge_clear { sd with cur_state := true, last_change_time := t } hflag]
      exact ⟨⟨hflag, hsinv, hdinv, hpress, hrel,
        Or.inr (Or.inr (Or.inl ⟨hprev, rfl, rfl⟩))⟩, rfl⟩

/-- C4 (amended): the two-state variant with shared window `w` is observably
equivalent to the four-state variant with both windows set to `w + 1` — not
to `w`: for every pair of engines related by `twoFourRel` (both non-inverted,
no pending flag, matching confirmed/raw state) and every sample sequence,
the edge stream obtained from the two-state `update` followed by the
consume-and-clear flag reading equals the edge stream returned by
`debounce_update`.  The offset of one tick is forced by the strict `>` of
the two-state stability check against the inclusive `>=` of the four-state
one, so equal windows do not give identical behavior. -/
theorem two_state_refines_four_state_succ (samples : List (Bool × Nat)) :
    ∀ (sd : SoftwareDebounce) (d : debounce_t), twoFourRel sd d →
      SoftwareDebounce.sdEdges sd samples = runEdges d samples := by
  induction samples with
  | nil => intro sd d _; rfl
  | cons p rest ih =>
      intro sd d h
      obtain ⟨lvl, t⟩ := p
      have hstep := two_four_step sd d lvl t h
      show (SoftwareDebounce.consume_edge (sd.update lvl t)).1 ::
          SoftwareDebounce.sdEdges (SoftwareDebounce.consume_edge (sd.update lvl t)).2 rest =
        (debounce_update d lvl t).2 :: runEdges (debounce_update d lvl t).1 rest
      rw [hstep.2, ih _ _ hstep.1]

/-- Witness for `two_state_refines_four_state_succ`: a two-state engine with
delay 49 tracks a four-state engine with windows 50 through a press. -/
theorem two_state_refines_four_state_succ_witness :
    SoftwareDebounce.sdEdges
        { inverted := false, cur_state := false, prev_stable_state := false,
          last_change_time := 0, delay_time := 49, state_changed := false }
        [(true, 0), (true, 50), (false, 60), (false, 110)] =
      runEdges
        { inverted := false, last_update_ticks := 0, press_delay_ticks := 50,
          release_delay_ticks := 50, state := DEBOUNCE_LOW }
        [(true, 0), (true, 50), (false, 60), (false, 110)] :=
  two_state_refines_four_state_succ
    [(true, 0), (true, 50), (false, 60), (false, 110)]
    { inverted := false, cur_state := false, prev_stable_state := false,
      last_change_time := 0, delay_time := 49, state_changed := false }
    { inverted := false, last_update_ticks := 0, press_delay_ticks := 50,
      release_delay_ticks := 50, state := DEBOUNCE_LOW }
    ⟨rfl, rfl, rfl, rfl, rfl, Or.inl ⟨rfl, rfl, rfl⟩⟩

/-- C4 counterexample: with equal windows (both 50), the two variants are
not observably equivalent — a press sampled at elapsed time exactly 50 fires
the four-state engine but not the two-state one. -/
theorem equal_windows_equiv_cx :
    SoftwareDebounce.sdEdges
        { inverted := false, cur_state := false, prev_stable_state := false,
          last_change_time := 0, delay_time := 50, state_changed := false }
        [(true, 0), (true, 50)] ≠
      runEdges
        { inverted := false, last_update_ticks := 0, press_delay_ticks := 50,
          release_delay_ticks := 50, state := DEBOUNCE_LOW }
        [(true, 0), (true, 50)] := by
  decide
